import Mathlib

/-!
Verification development for the `travelpredict` repository: a shallow
embedding of the snapshot-collection scheduler, the snapshot-to-deviation
aggregation pipeline and the batched upsert persistence, together with
proofs of the specified properties.

Instants (timezone-aware pandas datetimes) are modelled as `Int` seconds on
a common absolute axis, so datetime subtraction yields the delay in seconds
and comparison of instants matches pandas ordering.  Timedeltas are `Int`
seconds.  String-valued columns stay `String` (pandas `.max()` over object
columns is the lexicographic maximum, matching `max` of the `String` linear
order).
-/

/-- One flattened row of the DataFrame built in
`convert_to_dataframe` (`entur_collector/dataanalysis/convertdata.py`):
columns `timestamp, realtime, aimed_arrival, aimed_departure,
expected_arrival, expected_departure, quay_id, line_id, line_name,
transport_mode`. -/
structure Row where
  timestamp : Int
  realtime : Bool
  aimed_arrival : Int
  aimed_departure : Int
  expected_arrival : Int
  expected_departure : Int
  quay_id : String
  line_id : String
  line_name : String
  transport_mode : String
deriving DecidableEq, Repr

/-- A row after `find_deviations` has added the two delay columns
`expected_delay = expected_arrival - aimed_arrival` and
`timestamp_delay = timestamp - aimed_arrival`. -/
structure DevRow where
  timestamp : Int
  realtime : Bool
  aimed_arrival : Int
  aimed_departure : Int
  expected_arrival : Int
  expected_departure : Int
  quay_id : String
  line_id : String
  line_name : String
  transport_mode : String
  expected_delay : Int
  timestamp_delay : Int
deriving DecidableEq, Repr

/-- The grouping key `(aimed_arrival, line_id)` of a raw row. -/
def rkey (r : Row) : Int × String := (r.aimed_arrival, r.line_id)

/-- The grouping key `(aimed_arrival, line_id)` of a delay-annotated row. -/
def dkey (d : DevRow) : Int × String := (d.aimed_arrival, d.line_id)

/-- `df['expected_delay'] = df.expected_arrival - df.aimed_arrival` and
`df['timestamp_delay'] = df.timestamp - df.aimed_arrival` applied to one
row (`convertdata.py`, lines 77-78). -/
def addDelays (r : Row) : DevRow :=
  { timestamp := r.timestamp
    realtime := r.realtime
    aimed_arrival := r.aimed_arrival
    aimed_departure := r.aimed_departure
    expected_arrival := r.expected_arrival
    expected_departure := r.expected_departure
    quay_id := r.quay_id
    line_id := r.line_id
    line_name := r.line_name
    transport_mode := r.transport_mode
    expected_delay := r.expected_arrival - r.aimed_arrival
    timestamp_delay := r.timestamp - r.aimed_arrival }

/-- `df = df[df.realtime]` followed by the two delay-column assignments:
the realtime-filtered, delay-annotated row multiset of `find_deviations`. -/
def devRows (rows : List Row) : List DevRow :=
  (rows.filter (·.realtime)).map addDelays

/-- The rows of one groupby group: all delay-annotated realtime rows whose
`(aimed_arrival, line_id)` key equals `k`. -/
def group (rows : List Row) (k : Int × String) : List DevRow :=
  (devRows rows).filter (fun d => decide (dkey d = k))

/-- Lexicographic maximum of two strings, the pandas `.max()` on an object
column of Python strings (code-point lexicographic order).  Stated on the
underlying character lists so that the kernel can evaluate it; it agrees
with `max` of the `String` linear order (`strMax_eq_max`). -/
def strMax (a b : String) : String := if a.data < b.data then b else a

/-- Column-wise maximum of two rows: `max` independently in every column
(`realtime` is a boolean column, whose pandas maximum is the boolean
disjunction, i.e. `max` in the `Bool` order). -/
def maxDev (a b : DevRow) : DevRow :=
  { timestamp := max a.timestamp b.timestamp
    realtime := max a.realtime b.realtime
    aimed_arrival := max a.aimed_arrival b.aimed_arrival
    aimed_departure := max a.aimed_departure b.aimed_departure
    expected_arrival := max a.expected_arrival b.expected_arrival
    expected_departure := max a.expected_departure b.expected_departure
    quay_id := strMax a.quay_id b.quay_id
    line_id := strMax a.line_id b.line_id
    line_name := strMax a.line_name b.line_name
    transport_mode := strMax a.transport_mode b.transport_mode
    expected_delay := max a.expected_delay b.expected_delay
    timestamp_delay := max a.timestamp_delay b.timestamp_delay }

/-- Aggregation of one (nonempty) group: the column-wise maximum over all
its rows, i.e. pandas `groupby(...).max()` restricted to one group. -/
def groupMax? : List DevRow → Option DevRow
  | [] => none
  | d :: ds => some (ds.foldl maxDev d)

/-- `find_deviations` (`convertdata.py`, lines 71-79): filter to realtime
rows, add the two delay columns, then
`df.groupby(['aimed_arrival', 'line_id']).max()` — one output record per
distinct key, every column aggregated by `max` independently.  (pandas
orders the output by sorted key; the embedding keeps the deduplicated key
list instead, which is the same multiset of records.) -/
def find_deviations (rows : List Row) : List DevRow :=
  (((devRows rows).map dkey).dedup).filterMap (fun k => groupMax? (group rows k))

/-- §8 end-to-end scenario, first snapshot (captured 08:00, i.e. minute
480): the call aimed at 08:10 on line `X`, expected arrival 08:11. -/
def scenarioRow1 : Row :=
  { timestamp := 480
    realtime := true
    aimed_arrival := 490
    aimed_departure := 490
    expected_arrival := 491
    expected_departure := 491
    quay_id := "q1"
    line_id := "X"
    line_name := "L"
    transport_mode := "bus" }

/-- §8 end-to-end scenario, second snapshot (captured 08:05): the same
call, expected arrival now 08:09. -/
def scenarioRow2 : Row :=
  { timestamp := 485
    realtime := true
    aimed_arrival := 490
    aimed_departure := 490
    expected_arrival := 489
    expected_departure := 489
    quay_id := "q1"
    line_id := "X"
    line_name := "L"
    transport_mode := "bus" }

example : (addDelays scenarioRow1).expected_delay = 1 := by decide
example : (addDelays scenarioRow2).timestamp_delay = -5 := by decide

/-- The single reconciled record of the §8 scenario: `timestamp` 08:05
(minute 485), `expected_arrival` the column-wise maximum 08:11, and
`expected_delay` the maximum (+1 minute) of the two candidates. -/
def scenarioReconciled : DevRow :=
  { timestamp := 485
    realtime := true
    aimed_arrival := 490
    aimed_departure := 490
    expected_arrival := 491
    expected_departure := 491
    quay_id := "q1"
    line_id := "X"
    line_name := "L"
    transport_mode := "bus"
    expected_delay := 1
    timestamp_delay := -5 }

/-- Insertion step of the timestamp sort used by the migration script. -/
def insertTs (r : DevRow) : List DevRow → List DevRow
  | [] => [r]
  | x :: xs => if r.timestamp ≤ x.timestamp then r :: x :: xs else x :: insertTs r xs

/-- `df.sort_values('timestamp')` of the migration script: the rows in
ascending `timestamp` order (the relative order of rows with equal
timestamps is not specified by the source's quicksort and no claim
depends on it). -/
def sortByTs : List DevRow → List DevRow
  | [] => []
  | x :: xs => insertTs x (sortByTs xs)

/-- `deduplicate_records` (`scripts/migrate_deviations_to_supabase.py`,
lines 72-87): sort by `timestamp` ascending, then
`groupby(['aimed_arrival', 'line_id']).last()` — for each key keep the
entire last row of the sorted group. -/
def deduplicate_records (rows : List DevRow) : List DevRow :=
  let sorted := sortByTs rows
  ((sorted.map dkey).dedup).filterMap
    (fun k => (sorted.filter (fun d => decide (dkey d = k))).getLast?)

/-- The batch partition `records[i:i+batch_size]` for
`i in range(0, len(records), batch_size)`. -/
def chunks {α : Type} (batch_size : Nat) (l : List α) : List (List α) :=
  (List.range ((l.length + batch_size - 1) / batch_size)).map
    (fun i => (l.drop (i * batch_size)).take batch_size)

/-- `BATCH_SIZE = 1000` of `process_raw_data` (`convertdata.py`, line 163). -/
def BATCH_SIZE : Nat := 1000

/-- Result of `batch_upsert_to_supabase`: the total number of successfully
upserted records and the 1-based numbers of the failed batches. -/
structure UpsertReport where
  total_uploaded : Nat
  failed_batches : List Nat
deriving DecidableEq, Repr

/-- The batch loop of `batch_upsert_to_supabase` (migration script, lines
150-166): each batch is tried against the abstract per-batch upsert
outcome `ok`; a failing batch is appended to `failed_batches` and the loop
`continue`s with the next batch. -/
def upsertLoop {α : Type} (ok : List α → Bool) :
    Nat → UpsertReport → List (List α) → UpsertReport
  | _, rep, [] => rep
  | n, rep, b :: bs =>
    if ok b then
      upsertLoop ok (n + 1) { rep with total_uploaded := rep.total_uploaded + b.length } bs
    else
      upsertLoop ok (n + 1) { rep with failed_batches := rep.failed_batches ++ [n] } bs

/-- `batch_upsert_to_supabase` (`scripts/migrate_deviations_to_supabase.py`,
lines 115-171), abstracted over the storage backend: the upsert of one
batch either succeeds (`ok b = true`) or raises (`ok b = false`). -/
def batch_upsert_to_supabase {α : Type} (ok : List α → Bool) (records : List α)
    (batch_size : Nat) : UpsertReport :=
  upsertLoop ok 1 ⟨0, []⟩ (chunks batch_size records)

/-- The batch loop of `process_raw_data` (`convertdata.py`, lines 162-180):
a failing batch re-raises its exception (`raise`), aborting the loop;
modelled in `Except` with the failing batch number as the error. -/
def processRawLoop {α : Type} (ok : List α → Bool) :
    Nat → Nat → List (List α) → Except Nat Nat
  | _, total, [] => .ok total
  | n, total, b :: bs =>
    if ok b then processRawLoop ok (n + 1) (total + b.length) bs
    else .error n

/-- The batched-upsert portion of `process_raw_data`: partition into
batches of `BATCH_SIZE` and upsert each, re-raising on the first failure. -/
def process_raw_upsert {α : Type} (ok : List α → Bool) (records : List α) : Except Nat Nat :=
  processRawLoop ok 1 0 (chunks BATCH_SIZE records)

/-- The 1-based numbers of the failing batches, in order: the reference
value of `failed_batches`. -/
def failedIdx {α : Type} (ok : List α → Bool) : Nat → List (List α) → List Nat
  | _, [] => []
  | n, b :: bs => if ok b then failedIdx ok (n + 1) bs else n :: failedIdx ok (n + 1) bs

/-- A wall-clock reading of `datetime.now()` at microsecond resolution
(the resolution of Python datetimes). -/
structure WallClock where
  year : Nat
  month : Nat
  day : Nat
  hour : Nat
  minute : Nat
  second : Nat
  microsecond : Nat
deriving DecidableEq, Repr

/-- Zero-padded two-digit decimal field of `strftime`. -/
def pad2 (n : Nat) : String := if n < 10 then "0" ++ toString n else toString n

/-- Zero-padded four-digit decimal field of `strftime`. -/
def pad4 (n : Nat) : String :=
  if n < 10 then "000" ++ toString n
  else if n < 100 then "00" ++ toString n
  else if n < 1000 then "0" ++ toString n
  else toString n

/-- `datetime.now().strftime("%Y%m%d_%H%M%S")` (`collector.py`, line 34):
a second-granularity wall-clock name; the microsecond field is not used. -/
def strftime_second (t : WallClock) : String :=
  pad4 t.year ++ pad2 t.month ++ pad2 t.day ++ "_" ++
    pad2 t.hour ++ pad2 t.minute ++ pad2 t.second

/-- The snapshot artifact name `f"entur_data_{timestamp}.json"` assigned in
`download_realtime_data` (`collector.py`, lines 32-44). -/
def snapshot_filename (t : WallClock) : String :=
  "entur_data_" ++ strftime_second t ++ ".json"

/-- Two wall-clock readings within the same wall-clock second: they agree
on every field down to seconds. -/
def sameSecond (t1 t2 : WallClock) : Prop :=
  t1.year = t2.year ∧ t1.month = t2.month ∧ t1.day = t2.day ∧
  t1.hour = t2.hour ∧ t1.minute = t2.minute ∧ t1.second = t2.second

/-- Outcome of one iteration of the scheduling loop in
`run_scheduled_downloads` (`collector.py`, lines 80-92). -/
inductive LoopAction where
  | runPending
  | finish
  | wait
deriving DecidableEq, Repr

/-- The window computation of `run_scheduled_downloads` (`collector.py`,
lines 63-74): `start`/`end` are the parsed `"%H:%M"` times placed on the
current day (`midnight` is the absolute instant of today's 00:00, and
`startSOD`/`endSOD` the parsed seconds-of-day); when `end < start` the end
is moved to the following day (`end += timedelta(days=1)`). -/
def schedule_window (midnight startSOD endSOD : Int) : Int × Int :=
  let start := midnight + startSOD
  let e := midnight + endSOD
  (start, if e < start then e + 86400 else e)

/-- One iteration of the `while True` loop (`collector.py`, lines 80-92):
inside `[start, end]` the due fetches are run (`schedule.run_pending()`),
past `end` the loop breaks, before `start` it sleeps. -/
def loop_step (start e t : Int) : LoopAction :=
  if start ≤ t ∧ t ≤ e then .runPending
  else if e < t then .finish
  else .wait

/-- A typed column value of a record sent to the `deviations` table. -/
inductive DbValue where
  | int (n : Int)
  | str (s : String)
  | bool (b : Bool)
deriving DecidableEq, Repr

/-- Gregorian date of the day `z` days after 1970-01-01 (standard
civil-from-days conversion). -/
def civil_from_days (z : Int) : Int × Nat × Nat :=
  let z' := z + 719468
  let era := Int.fdiv z' 146097
  let doe := (z' - era * 146097).toNat
  let yoe := (doe - doe / 1460 + doe / 36524 - doe / 146096) / 365
  let y := era * 400 + yoe
  let doy := doe - (365 * yoe + yoe / 4 - yoe / 100)
  let mp := (5 * doy + 2) / 153
  let d := doy - (153 * mp + 2) / 5 + 1
  let m := if mp < 10 then mp + 3 else mp - 9
  (if m ≤ 2 then y + 1 else y, m, d)

/-- `strftime('%Y-%m-%dT%H:%M:%S')` of a naive instant (`Int` seconds on
the common axis, whose origin is 1970-01-01T00:00): the serialization of
the datetime columns in `process_raw_data` (`convertdata.py`, line 157). -/
def isoNaive (t : Int) : String :=
  let days := Int.fdiv t 86400
  let secs := (t - days * 86400).toNat
  let ymd := civil_from_days days
  pad4 ymd.1.toNat ++ "-" ++ pad2 ymd.2.1 ++ "-" ++ pad2 ymd.2.2 ++ "T" ++
    pad2 (secs / 3600) ++ ":" ++ pad2 (secs % 3600 / 60) ++ ":" ++ pad2 (secs % 60)

/-- One record of `df.to_dict('records')` as upserted by `process_raw_data`
(`convertdata.py`, lines 142-160): the index reset to columns, the two
timedelta columns converted to integer seconds
(`.dt.total_seconds().astype(int)`) and the original timedelta columns
dropped, datetimes serialized as naive ISO strings. -/
def to_db_record (r : DevRow) : List (String × DbValue) :=
  [("aimed_arrival", .str (isoNaive r.aimed_arrival)),
   ("line_id", .str r.line_id),
   ("timestamp", .str (isoNaive r.timestamp)),
   ("realtime", .bool r.realtime),
   ("aimed_departure", .str (isoNaive r.aimed_departure)),
   ("expected_arrival", .str (isoNaive r.expected_arrival)),
   ("expected_departure", .str (isoNaive r.expected_departure)),
   ("quay_id", .str r.quay_id),
   ("line_name", .str r.line_name),
   ("transport_mode", .str r.transport_mode),
   ("expected_delay_seconds", .int r.expected_delay),
   ("timestamp_delay_seconds", .int r.timestamp_delay)]

/-- A naive (timezone-stripped) datetime, as stored in and read back from
the `deviations` table by `read_deviations`. -/
structure NaiveDT where
  year : Nat
  month : Nat
  day : Nat
  hour : Nat
  minute : Nat
  second : Nat
deriving DecidableEq, Repr

/-- Days from 1970-01-01 to the given Gregorian date (standard
days-from-civil conversion, stated for years ≥ 1). -/
def days_from_civil (y m d : Nat) : Int :=
  let y' := if m ≤ 2 then y - 1 else y
  let era := y' / 400
  let yoe := y' - era * 400
  let mp := (m + 9) % 12
  let doy := (153 * mp + 2) / 5 + d - 1
  let doe := yoe * 365 + yoe / 4 - yoe / 100 + doy
  (era * 146097 + doe : Int) - 719468

/-- The instant of a naive datetime in seconds on the common axis. -/
def toSeconds (t : NaiveDT) : Int :=
  days_from_civil t.year t.month t.day * 86400 +
    (t.hour * 3600 + t.minute * 60 + t.second : Nat)

/-- `start_date = pd.Timestamp(year=2024, month=12, day=1)`
(`convertdata.py`, line 123): the fixed reference epoch. -/
def start_date : NaiveDT := ⟨2024, 12, 1, 0, 0, 0⟩

/-- `df['day_number'] = (df['aimed_arrival'] - start_date).dt.days`
(`convertdata.py`, line 124): the timedelta floored to whole days. -/
def day_number (a : NaiveDT) : Int :=
  Int.fdiv (toSeconds a - toSeconds start_date) 86400

/-- `df['day_of_week'] = df['aimed_arrival'].dt.dayofweek`
(`convertdata.py`, line 118): Monday = 0.  1970-01-01 was a Thursday
(day-of-week 3). -/
def day_of_week (a : NaiveDT) : Int :=
  Int.emod (days_from_civil a.year a.month a.day + 3) 7

/-- `df['month'] = df['aimed_arrival'].dt.month` (`convertdata.py`,
line 120). -/
def month_of (a : NaiveDT) : Nat := a.month

/-- A timezone-aware datetime as parsed by pydantic for the `*Time`
fields of `models.py`: wall-clock fields plus a fixed UTC offset in
seconds (`tzinfo`). -/
structure TZDateTime where
  wall : NaiveDT
  offset : Int
deriving DecidableEq, Repr

/-- The absolute instant a timezone-aware datetime denotes: wall-clock
seconds minus the UTC offset. -/
def instantOf (t : TZDateTime) : Int := toSeconds t.wall - t.offset

/-- One `EstimatedCall` of `models.py`, with the nested singleton wrappers
(`quay.id`, `serviceJourney.journeyPattern.line.{id,name,transportMode}`)
flattened into the fields `convert_to_dataframe` reads. -/
structure EstimatedCall where
  realtime : Bool
  aimedArrivalTime : TZDateTime
  aimedDepartureTime : TZDateTime
  expectedArrivalTime : TZDateTime
  expectedDepartureTime : TZDateTime
  quay_id : String
  line_id : String
  line_name : String
  transport_mode : String
deriving DecidableEq, Repr

/-- One snapshot artifact (`EnturData` of `models.py`): `timestamp` is the
capture-time string already parsed by `strptime(_, "%Y%m%d_%H%M%S")` —
second precision, carrying no zone of its own. -/
structure Snapshot where
  timestamp : NaiveDT
  estimatedCalls : List EstimatedCall
deriving DecidableEq, Repr

/-- One flattened row of `convert_to_dataframe` before any filtering, with
the datetime columns still timezone-aware. -/
structure FlatRecord where
  timestamp : TZDateTime
  realtime : Bool
  aimed_arrival : TZDateTime
  aimed_departure : TZDateTime
  expected_arrival : TZDateTime
  expected_departure : TZDateTime
  quay_id : String
  line_id : String
  line_name : String
  transport_mode : String
deriving DecidableEq, Repr

/-- `parsed_timestamp.replace(tzinfo=trip.aimedArrivalTime.tzinfo)`
(`convertdata.py`, lines 52-53): the snapshot's parsed capture time is
assigned the zone of this row's own `aimedArrivalTime`. -/
def row_timestamp (snapTs : NaiveDT) (trip : EstimatedCall) : TZDateTime :=
  ⟨snapTs, trip.aimedArrivalTime.offset⟩

/-- `convert_to_dataframe` (`convertdata.py`, lines 37-68): one flattened
row per estimated call per snapshot. -/
def convert_to_dataframe (snaps : List Snapshot) : List FlatRecord :=
  (snaps.map (fun s => s.estimatedCalls.map (fun trip =>
    { timestamp := row_timestamp s.timestamp trip
      realtime := trip.realtime
      aimed_arrival := trip.aimedArrivalTime
      aimed_departure := trip.aimedDepartureTime
      expected_arrival := trip.expectedArrivalTime
      expected_departure := trip.expectedDepartureTime
      quay_id := trip.quay_id
      line_id := trip.line_id
      line_name := trip.line_name
      transport_mode := trip.transport_mode : FlatRecord }))).flatten

/-- An example estimated call whose datetime fields carry the UTC offset
`off` (seconds): used to exhibit the per-row zone assignment. -/
def exCall (off : Int) : EstimatedCall :=
  { realtime := true
    aimedArrivalTime := ⟨⟨2025, 1, 6, 8, 10, 0⟩, off⟩
    aimedDepartureTime := ⟨⟨2025, 1, 6, 8, 10, 0⟩, off⟩
    expectedArrivalTime := ⟨⟨2025, 1, 6, 8, 11, 0⟩, off⟩
    expectedDepartureTime := ⟨⟨2025, 1, 6, 8, 11, 0⟩, off⟩
    quay_id := "q1"
    line_id := "X"
    line_name := "L"
    transport_mode := "bus" }

/-- `v` is the maximum of the column `l`: it occurs in the column and
bounds every entry. -/
def isMaxOf {β : Type} [LinearOrder β] (v : β) (l : List β) : Prop :=
  v ∈ l ∧ ∀ x ∈ l, x ≤ v

/-- `rec` holds, in every column, the column-wise maximum of the rows
`g` — the per-group contract of `groupby(['aimed_arrival', 'line_id']).max()`. -/
def isColMax (g : List DevRow) (rec : DevRow) : Prop :=
  isMaxOf rec.timestamp (g.map (·.timestamp)) ∧
  isMaxOf rec.realtime (g.map (·.realtime)) ∧
  isMaxOf rec.aimed_arrival (g.map (·.aimed_arrival)) ∧
  isMaxOf rec.aimed_departure (g.map (·.aimed_departure)) ∧
  isMaxOf rec.expected_arrival (g.map (·.expected_arrival)) ∧
  isMaxOf rec.expected_departure (g.map (·.expected_departure)) ∧
  isMaxOf rec.quay_id (g.map (·.quay_id)) ∧
  isMaxOf rec.line_id (g.map (·.line_id)) ∧
  isMaxOf rec.line_name (g.map (·.line_name)) ∧
  isMaxOf rec.transport_mode (g.map (·.transport_mode)) ∧
  isMaxOf rec.expected_delay (g.map (·.expected_delay)) ∧
  isMaxOf rec.timestamp_delay (g.map (·.timestamp_delay))

lemma strMax_eq_max (a b : String) : strMax a b = max a b := by
  unfold strMax
  split_ifs with h
  · exact (max_eq_right (le_of_lt (String.lt_iff_toList_lt.mpr h))).symm
  · exact (max_eq_left (le_of_not_lt fun hc => h (String.lt_iff_toList_lt.mp hc))).symm

lemma foldl_max_mem {β : Type} [LinearOrder β] (l : List β) (d : β) :
    l.foldl max d ∈ d :: l := by
  induction l generalizing d with
  | nil => simp
  | cons x xs ih =>
    rw [List.foldl_cons]
    rcases List.mem_cons.mp (ih (max d x)) with h | h
    · rw [h]
      rcases max_choice d x with hm | hm <;> rw [hm]
      · exact List.mem_cons_self _ _
      · exact List.mem_cons_of_mem _ (List.mem_cons_self _ _)
    · exact List.mem_cons_of_mem _ (List.mem_cons_of_mem _ h)

lemma le_foldl_max {β : Type} [LinearOrder β] (l : List β) (d : β) :
    ∀ x ∈ d :: l, x ≤ l.foldl max d := by
  induction l generalizing d with
  | nil => intro x hx; rw [List.mem_singleton] at hx; simp [hx]
  | cons y ys ih =>
    intro x hx
    rw [List.foldl_cons]
    rcases List.mem_cons.mp hx with h | h
    · subst h
      exact le_trans (le_max_left x y) (ih (max x y) _ (List.mem_cons_self _ _))
    · rcases List.mem_cons.mp h with h | h
      · subst h
        exact le_trans (le_max_right d x) (ih (max d x) _ (List.mem_cons_self _ _))
      · exact ih (max d y) x (List.mem_cons_of_mem _ h)

lemma foldl_maxDev_proj {β : Type} [LinearOrder β] (p : DevRow → β)
    (hp : ∀ a b, p (maxDev a b) = max (p a) (p b)) :
    ∀ (ds : List DevRow) (d : DevRow),
      p (ds.foldl maxDev d) = (ds.map p).foldl max (p d) := by
  intro ds
  induction ds with
  | nil => intro d; rfl
  | cons x xs ih =>
    intro d
    rw [List.foldl_cons, List.map_cons, List.foldl_cons, ih, hp]

lemma groupMax_isMax {β : Type} [LinearOrder β] (p : DevRow → β)
    (hp : ∀ a b, p (maxDev a b) = max (p a) (p b)) (d : DevRow) (ds : List DevRow) :
    isMaxOf (p (ds.foldl maxDev d)) ((d :: ds).map p) := by
  rw [foldl_maxDev_proj p hp, List.map_cons]
  exact ⟨foldl_max_mem _ _, le_foldl_max _ _⟩

lemma groupMax_isColMax (d : DevRow) (ds : List DevRow) :
    isColMax (d :: ds) (ds.foldl maxDev d) :=
  ⟨groupMax_isMax (fun r => r.timestamp) (fun _ _ => rfl) d ds,
   groupMax_isMax (fun r => r.realtime) (fun _ _ => rfl) d ds,
   groupMax_isMax (fun r => r.aimed_arrival) (fun _ _ => rfl) d ds,
   groupMax_isMax (fun r => r.aimed_departure) (fun _ _ => rfl) d ds,
   groupMax_isMax (fun r => r.expected_arrival) (fun _ _ => rfl) d ds,
   groupMax_isMax (fun r => r.expected_departure) (fun _ _ => rfl) d ds,
   groupMax_isMax (fun r => r.quay_id) (fun _ _ => strMax_eq_max _ _) d ds,
   groupMax_isMax (fun r => r.line_id) (fun _ _ => strMax_eq_max _ _) d ds,
   groupMax_isMax (fun r => r.line_name) (fun _ _ => strMax_eq_max _ _) d ds,
   groupMax_isMax (fun r => r.transport_mode) (fun _ _ => strMax_eq_max _ _) d ds,
   groupMax_isMax (fun r => r.expected_delay) (fun _ _ => rfl) d ds,
   groupMax_isMax (fun r => r.timestamp_delay) (fun _ _ => rfl) d ds⟩

lemma dkey_addDelays (r : Row) : dkey (addDelays r) = rkey r := rfl

lemma mem_group (rows : List Row) (k : Int × String) (d : DevRow) :
    d ∈ group rows k ↔ d ∈ devRows rows ∧ dkey d = k := by
  simp [group, List.mem_filter]

lemma groupMax_key (k : Int × String) (d : DevRow) (ds : List DevRow)
    (h : ∀ x ∈ d :: ds, dkey x = k) : dkey (ds.foldl maxDev d) = k := by
  obtain ⟨x, hx, hxa⟩ :=
    List.mem_map.mp (groupMax_isMax (fun r => r.aimed_arrival) (fun _ _ => rfl) d ds).1
  obtain ⟨y, hy, hyl⟩ :=
    List.mem_map.mp (groupMax_isMax (fun r => r.line_id) (fun _ _ => strMax_eq_max _ _) d ds).1
  have hxk := h x hx
  have hyk := h y hy
  cases k with
  | mk ka kl =>
    simp only [dkey, Prod.mk.injEq] at hxk hyk ⊢
    constructor
    · rw [← hxa]; exact hxk.1
    · rw [← hyl]; exact hyk.2

lemma groupMax?_group_key (rows : List Row) (k : Int × String) (rec : DevRow)
    (h : groupMax? (group rows k) = some rec) : dkey rec = k := by
  cases hg : group rows k with
  | nil => rw [hg] at h; exact absurd h (by simp [groupMax?])
  | cons d ds =>
    rw [hg] at h
    simp only [groupMax?, Option.some.injEq] at h
    subst h
    refine groupMax_key k d ds ?_
    intro x hx
    exact ((mem_group rows k x).mp (hg ▸ hx)).2

lemma nodup_map_filterMap {κ α : Type} {l : List κ} (hl : l.Nodup)
    (f : κ → Option α) (g : α → κ) (hf : ∀ k a, f k = some a → g a = k) :
    ((l.filterMap f).map g).Nodup := by
  induction l with
  | nil => simp
  | cons k ks ih =>
    rcases List.nodup_cons.mp hl with ⟨hk, hks⟩
    cases hfk : f k with
    | none => simp only [List.filterMap_cons, hfk]; exact ih hks
    | some a =>
      simp only [List.filterMap_cons, hfk, List.map_cons, List.nodup_cons]
      refine ⟨?_, ih hks⟩
      intro hmem
      obtain ⟨b, hb, hgb⟩ := List.mem_map.mp hmem
      obtain ⟨k', hk', hfk'⟩ := List.mem_filterMap.mp hb
      have : k' = k := by rw [← hf k' b hfk', hgb, hf k a hfk]
      exact hk (this ▸ hk')

lemma find_deviations_nodup_keys (rows : List Row) :
    ((find_deviations rows).map dkey).Nodup := by
  unfold find_deviations
  exact nodup_map_filterMap (List.nodup_dedup _) _ dkey
    (fun k rec h => groupMax?_group_key rows k rec h)

lemma exists_record_of_key (rows : List Row) (k : Int × String)
    (hk : ∃ r, r ∈ rows ∧ r.realtime = true ∧ rkey r = k) :
    ∃ rec, rec ∈ find_deviations rows ∧ groupMax? (group rows k) = some rec := by
  obtain ⟨r, hr, hrt, hrk⟩ := hk
  have hd : addDelays r ∈ devRows rows :=
    List.mem_map_of_mem _ (List.mem_filter.mpr ⟨hr, by simp [hrt]⟩)
  have hg : addDelays r ∈ group rows k :=
    (mem_group rows k _).mpr ⟨hd, by rw [dkey_addDelays, hrk]⟩
  have hkd : k ∈ ((devRows rows).map dkey).dedup :=
    List.mem_dedup.mpr (List.mem_map.mpr ⟨addDelays r, hd, by rw [dkey_addDelays, hrk]⟩)
  cases hgr : group rows k with
  | nil => rw [hgr] at hg; cases hg
  | cons d ds =>
    refine ⟨ds.foldl maxDev d, ?_, rfl⟩
    exact List.mem_filterMap.mpr ⟨k, hkd, by rw [hgr]; rfl⟩

lemma devRows_realtime (rows : List Row) (d : DevRow) (hd : d ∈ devRows rows) :
    d.realtime = true := by
  obtain ⟨r, hr, hrd⟩ := List.mem_map.mp hd
  have := (List.mem_filter.mp hr).2
  subst hrd
  simpa [addDelays] using this

lemma mem_insertTs (r x : DevRow) (l : List DevRow) :
    x ∈ insertTs r l ↔ x = r ∨ x ∈ l := by
  induction l with
  | nil => simp [insertTs]
  | cons y ys ih =>
    simp only [insertTs]
    split_ifs with h
    · simp [List.mem_cons]
    · simp only [List.mem_cons, ih]
      tauto

lemma mem_sortByTs (l : List DevRow) (x : DevRow) : x ∈ sortByTs l ↔ x ∈ l := by
  induction l with
  | nil => simp [sortByTs]
  | cons y ys ih =>
    simp only [sortByTs, mem_insertTs, ih, List.mem_cons]

lemma mem_of_getLast?_eq_some {α : Type} {l : List α} {a : α}
    (h : l.getLast? = some a) : a ∈ l := by
  obtain ⟨hne, heq⟩ := List.mem_getLast?_eq_getLast (Option.mem_def.mpr h)
  rw [heq]
  exact List.getLast_mem hne

lemma upsertLoop_total {α : Type} (ok : List α → Bool) (l : List (List α)) :
    ∀ (n : Nat) (rep : UpsertReport),
      (upsertLoop ok n rep l).total_uploaded =
        rep.total_uploaded + ((l.filter ok).map List.length).sum := by
  induction l with
  | nil => intro n rep; simp [upsertLoop]
  | cons b bs ih =>
    intro n rep
    by_cases hob : ok b = true
    · simp only [upsertLoop, if_pos hob, ih, List.filter_cons, hob, if_true,
        List.map_cons, List.sum_cons]
      omega
    · simp only [upsertLoop, if_neg hob, ih, List.filter_cons, if_neg hob]

lemma upsertLoop_failed {α : Type} (ok : List α → Bool) (l : List (List α)) :
    ∀ (n : Nat) (rep : UpsertReport),
      (upsertLoop ok n rep l).failed_batches =
        rep.failed_batches ++ failedIdx ok n l := by
  induction l with
  | nil => intro n rep; simp [upsertLoop, failedIdx]
  | cons b bs ih =>
    intro n rep
    by_cases hob : ok b = true
    · simp only [upsertLoop, failedIdx, if_pos hob, ih]
    · simp only [upsertLoop, failedIdx, if_neg hob, ih]
      simp

lemma le_of_mem_failedIdx {α : Type} (ok : List α → Bool) (l : List (List α)) :
    ∀ (n m : Nat), m ∈ failedIdx ok n l → n ≤ m := by
  induction l with
  | nil => intro n m h; simp [failedIdx] at h
  | cons b bs ih =>
    intro n m h
    by_cases hob : ok b = true
    · rw [failedIdx, if_pos hob] at h
      exact Nat.le_of_succ_le (ih (n + 1) m h)
    · rw [failedIdx, if_neg hob, List.mem_cons] at h
      rcases h with h | h
      · exact h ▸ Nat.le_refl n
      · exact Nat.le_of_succ_le (ih (n + 1) m h)

lemma mem_failedIdx {α : Type} (ok : List α → Bool) (l : List (List α)) :
    ∀ (n i : Nat) (b : List α), l.get? i = some b →
      ((n + i) ∈ failedIdx ok n l ↔ ok b = false) := by
  induction l with
  | nil => intro n i b h; simp at h
  | cons b0 bs ih =>
    intro n i b h
    cases i with
    | zero =>
      simp only [List.get?_cons_zero, Option.some.injEq] at h
      subst h
      rw [Nat.add_zero]
      by_cases hob : ok b0 = true
      · rw [failedIdx, if_pos hob, hob]
        simp only [Bool.true_eq_false, iff_false]
        intro hmem
        exact absurd (le_of_mem_failedIdx ok bs (n + 1) n hmem) (by omega)
      · rw [failedIdx, if_neg hob, List.mem_cons]
        simp [Bool.not_eq_true] at hob
        simp [hob]
    | succ j =>
      simp only [List.get?_cons_succ] at h
      have hj := ih (n + 1) j b h
      rw [show n + (j + 1) = (n + 1) + j by omega]
      by_cases hob : ok b0 = true
      · rw [failedIdx, if_pos hob]
        exact hj
      · rw [failedIdx, if_neg hob, List.mem_cons, hj]
        have hne : (n + 1) + j ≠ n := by omega
        tauto

lemma fdiv_day (d s : Int) (h0 : 0 ≤ s) (h1 : s < 86400) :
    Int.fdiv (d * 86400 + s) 86400 = d := by
  rw [show d * 86400 + s = s + 86400 * d by ring]
  rw [Int.fdiv_eq_ediv _ (by norm_num)]
  rw [Int.add_mul_ediv_left s d (by norm_num)]
  rw [Int.ediv_eq_zero_of_lt h0 h1]
  simp

lemma loop_step_runPending_iff (s e t : Int) :
    loop_step s e t = .runPending ↔ (s ≤ t ∧ t ≤ e) := by
  unfold loop_step
  split_ifs with h1 h2
  · simp [h1]
  · simp only [iff_false, reduceCtorEq, false_iff]
    exact h1
  · simp only [iff_false, reduceCtorEq, false_iff]
    exact h1

lemma loop_step_finish (s e t : Int) (h : e < t) : loop_step s e t = .finish := by
  unfold loop_step
  rw [if_neg (by omega), if_pos h]

/-- C1: for every group of flattened realtime rows sharing the same
`(aimed_arrival, line_id)` key, reconciliation produces exactly one record
whose value in each field is the column-wise maximum of that field across
the group's rows, independently per column (including `timestamp`); in the
§8 two-snapshot scenario this yields `timestamp` = 08:05 and
`expected_delay` derived from the maximum of the two candidate expected
arrivals. -/
theorem reconcile_columnwise_max :
    (∀ (rows : List Row) (k : Int × String),
        (∃ r, r ∈ rows ∧ r.realtime = true ∧ rkey r = k) →
        ∃ rec, rec ∈ find_deviations rows ∧ dkey rec = k ∧
          (∀ rec', rec' ∈ find_deviations rows → dkey rec' = k → rec' = rec) ∧
          isColMax (group rows k) rec) ∧
      find_deviations [scenarioRow1, scenarioRow2] = [scenarioReconciled] := by
  constructor
  · intro rows k hk
    obtain ⟨rec, hmem, hsome⟩ := exists_record_of_key rows k hk
    have hkey := groupMax?_group_key rows k rec hsome
    refine ⟨rec, hmem, hkey, ?_, ?_⟩
    · intro rec' hmem' hkey'
      exact List.inj_on_of_nodup_map (find_deviations_nodup_keys rows) hmem' hmem
        (by rw [hkey', hkey])
    · cases hgr : group rows k with
      | nil => rw [hgr] at hsome; cases hsome
      | cons d ds =>
        rw [hgr] at hsome
        simp only [groupMax?, Option.some.injEq] at hsome
        subst hsome
        exact groupMax_isColMax d ds
  · decide

/-- Witness for C1 at the concrete §8 scenario input. -/
theorem reconcile_columnwise_max_witness :
    ∃ rec, rec ∈ find_deviations [scenarioRow1, scenarioRow2] ∧ dkey rec = (490, "X") ∧
      (∀ rec', rec' ∈ find_deviations [scenarioRow1, scenarioRow2] →
        dkey rec' = (490, "X") → rec' = rec) ∧
      isColMax (group [scenarioRow1, scenarioRow2] (490, "X")) rec :=
  reconcile_columnwise_max.1 [scenarioRow1, scenarioRow2] (490, "X")
    ⟨scenarioRow1, by decide, by decide, by decide⟩

/-- C2: the Aggregator's reconciliation output never contains two records
with the same `(aimed_arrival, line_id)` key. -/
theorem aggregator_key_uniqueness (rows : List Row) :
    ((find_deviations rows).map dkey).Nodup :=
  find_deviations_nodup_keys rows

/-- C3: rows with `realtime = false` are discarded before delay
computation and grouping — removing them from the input does not change
the output, and every output record has `realtime = true`. -/
theorem nonrealtime_rows_excluded (rows : List Row) :
    find_deviations rows = find_deviations (rows.filter (·.realtime)) ∧
    ∀ rec, rec ∈ find_deviations rows → rec.realtime = true := by
  constructor
  · have hdev : devRows (rows.filter (·.realtime)) = devRows rows := by
      simp [devRows, List.filter_filter]
    simp only [find_deviations, group, hdev]
  · intro rec hrec
    simp only [find_deviations] at hrec
    obtain ⟨k, _, hsome⟩ := List.mem_filterMap.mp hrec
    cases hg : group rows k with
    | nil => rw [hg] at hsome; cases hsome
    | cons d ds =>
      rw [hg] at hsome
      simp only [groupMax?, Option.some.injEq] at hsome
      subst hsome
      obtain ⟨x, hx, hxr⟩ :=
        List.mem_map.mp (groupMax_isMax (fun r => r.realtime) (fun _ _ => rfl) d ds).1
      have hxdev : x ∈ devRows rows := ((mem_group rows k x).mp (hg ▸ hx)).1
      rw [← hxr]
      exact devRows_realtime rows x hxdev

/-- Witness for C3: the reconciled record of the one-snapshot input is a
realtime record. -/
theorem nonrealtime_rows_excluded_witness :
    (addDelays scenarioRow1).realtime = true :=
  (nonrealtime_rows_excluded [scenarioRow1]).2 (addDelays scenarioRow1) (by decide)

/-- C4: the legacy-export migration deduplicates by sorting by `timestamp`
ascending and keeping, per `(aimed_arrival, line_id)` key, the entire last
row (latest-row-wins, never a column-wise blend): every output row is one
of the input rows, and for two rows of the same key with `T1 < T2` only
the `T2` row is kept. -/
theorem migration_latest_row_wins :
    (∀ (rows : List DevRow) (rec : DevRow),
        rec ∈ deduplicate_records rows → rec ∈ rows) ∧
    ∀ (r1 r2 : DevRow), dkey r1 = dkey r2 → r1.timestamp < r2.timestamp →
      deduplicate_records [r1, r2] = [r2] := by
  constructor
  · intro rows rec hrec
    simp only [deduplicate_records] at hrec
    obtain ⟨k, _, hlast⟩ := List.mem_filterMap.mp hrec
    have hmem := mem_of_getLast?_eq_some hlast
    exact (mem_sortByTs rows rec).mp (List.mem_filter.mp hmem).1
  · intro r1 r2 hk ht
    have hsort : sortByTs [r1, r2] = [r1, r2] := by
      simp [sortByTs, insertTs, le_of_lt ht]
    simp only [deduplicate_records, hsort, List.map_cons, List.map_nil, hk]
    rw [List.dedup_cons_of_mem (by simp)]
    simp [List.filter, hk, List.getLast?]

/-- Witness for C4 at a concrete two-row input sharing one key. -/
theorem migration_latest_row_wins_witness :
    deduplicate_records [addDelays scenarioRow1, addDelays scenarioRow2] =
      [addDelays scenarioRow2] :=
  migration_latest_row_wins.2 (addDelays scenarioRow1) (addDelays scenarioRow2)
    (by decide) (by decide)

set_option maxRecDepth 8000 in
/-- C5 counterexample: in the live path (`process_raw_data`), a failing
first batch aborts the call with the re-raised exception (`Except.error 1`):
the second batch — which would have succeeded — is never attempted, and no
total count or failed-batch list is reported. -/
theorem process_raw_upsert_aborts :
    process_raw_upsert (fun b : List DevRow => decide (b.length < 1000))
        (List.replicate 1001 (addDelays scenarioRow1)) = Except.error 1 ∧
    (chunks BATCH_SIZE (List.replicate 1001 (addDelays scenarioRow1))).length = 2 ∧
    (fun b : List DevRow => decide (b.length < 1000))
        ((chunks BATCH_SIZE (List.replicate 1001 (addDelays scenarioRow1))).getD 1 [])
      = true := by
  refine ⟨rfl, rfl, rfl⟩

/-- C5 (amended): in the migration path (`batch_upsert_to_supabase`) the
batches are independent — whether batch `i` appears among the failed batch
numbers depends only on batch `i`'s own outcome, regardless of other
batches — and the call reports the total successfully-upserted count and
the 1-based failed batch numbers. -/
theorem batch_upsert_batches_independent {α : Type} (ok : List α → Bool)
    (records : List α) (batch_size : Nat) (i : Nat) (b : List α)
    (hb : (chunks batch_size records).get? i = some b) :
    ((i + 1) ∈ (batch_upsert_to_supabase ok records batch_size).failed_batches ↔
      ok b = false) ∧
    (batch_upsert_to_supabase ok records batch_size).total_uploaded =
      (((chunks batch_size records).filter ok).map List.length).sum := by
  constructor
  · rw [batch_upsert_to_supabase, upsertLoop_failed]
    simp only [List.nil_append]
    rw [show i + 1 = 1 + i by omega]
    exact mem_failedIdx ok _ 1 i b hb
  · rw [batch_upsert_to_supabase, upsertLoop_total]
    simp

/-- Witness for C5's amended claim: two one-record batches, the second
failing; batch 2 is reported failed, batch 1's record still counted. -/
theorem batch_upsert_batches_independent_witness :
    ((1 + 1) ∈ (batch_upsert_to_supabase (fun b : List Nat => decide (b ≠ [1]))
        [0, 1] 1).failed_batches ↔
      (fun b : List Nat => decide (b ≠ [1])) [1] = false) ∧
    (batch_upsert_to_supabase (fun b : List Nat => decide (b ≠ [1]))
        [0, 1] 1).total_uploaded =
      (((chunks 1 ([0, 1] : List Nat)).filter
        (fun b => decide (b ≠ [1]))).map List.length).sum :=
  batch_upsert_batches_independent (fun b : List Nat => decide (b ≠ [1]))
    [0, 1] 1 1 [1] (by decide)

/-- C6 counterexample: two distinct wall-clock readings within the same
second (two polls completing 0.1s and 0.9s into it) receive the same
artifact name, so the later write overwrites the earlier snapshot. -/
theorem snapshot_filename_collision :
    snapshot_filename ⟨2025, 1, 6, 8, 0, 0, 100000⟩ =
      snapshot_filename ⟨2025, 1, 6, 8, 0, 0, 900000⟩ ∧
    (⟨2025, 1, 6, 8, 0, 0, 100000⟩ : WallClock) ≠ ⟨2025, 1, 6, 8, 0, 0, 900000⟩ :=
  ⟨rfl, by decide⟩

/-- C6 (amended): the store names artifacts by the second-granularity
wall-clock reading only — any two writes within the same wall-clock second
are assigned identical identifiers (and the later silently overwrites the
earlier), contrary to the collision-free requirement. -/
theorem snapshot_filename_second_granularity (t1 t2 : WallClock)
    (h : sameSecond t1 t2) : snapshot_filename t1 = snapshot_filename t2 := by
  obtain ⟨h1, h2, h3, h4, h5, h6⟩ := h
  simp only [snapshot_filename, strftime_second, h1, h2, h3, h4, h5, h6]

/-- Witness for C6's amended claim at a concrete same-second pair. -/
theorem snapshot_filename_second_granularity_witness :
    snapshot_filename ⟨2025, 1, 6, 8, 0, 0, 1⟩ =
      snapshot_filename ⟨2025, 1, 6, 8, 0, 0, 2⟩ :=
  snapshot_filename_second_granularity ⟨2025, 1, 6, 8, 0, 0, 1⟩
    ⟨2025, 1, 6, 8, 0, 0, 2⟩ ⟨rfl, rfl, rfl, rfl, rfl, rfl⟩

/-- C7: the scheduling loop runs due fetches only at instants inside
`[start, effective end]`, finishes once the current instant exceeds the
effective end, and when the parsed end time-of-day precedes the start
time-of-day the effective end falls on the following calendar day. -/
theorem scheduler_window_adherence :
    (∀ (midnight startSOD endSOD t : Int),
      (loop_step (schedule_window midnight startSOD endSOD).1
          (schedule_window midnight startSOD endSOD).2 t = .runPending →
        (schedule_window midnight startSOD endSOD).1 ≤ t ∧
          t ≤ (schedule_window midnight startSOD endSOD).2) ∧
      ((schedule_window midnight startSOD endSOD).2 < t →
        loop_step (schedule_window midnight startSOD endSOD).1
          (schedule_window midnight startSOD endSOD).2 t = .finish)) ∧
    ∀ (midnight startSOD endSOD : Int), endSOD < startSOD →
      (schedule_window midnight startSOD endSOD).1 = midnight + startSOD ∧
      (schedule_window midnight startSOD endSOD).2 = midnight + endSOD + 86400 := by
  constructor
  · intro m s e t
    exact ⟨fun h => (loop_step_runPending_iff _ _ _).mp h,
      fun h => loop_step_finish _ _ _ h⟩
  · intro m s e h
    refine ⟨rfl, ?_⟩
    simp only [schedule_window]
    rw [if_pos (by omega)]

/-- Witness for C7: a 07:00-23:00 window today (fetch instant inside it,
finish instant past it), and a 23:00-07:00 window wrapping midnight. -/
theorem scheduler_window_adherence_witness :
    ((schedule_window 0 25200 82800).1 ≤ 30000 ∧
      (30000 : Int) ≤ (schedule_window 0 25200 82800).2) ∧
    loop_step (schedule_window 0 25200 82800).1
      (schedule_window 0 25200 82800).2 90000 = .finish ∧
    (schedule_window 0 82800 25200).1 = 0 + 82800 ∧
    (schedule_window 0 82800 25200).2 = 0 + 25200 + 86400 :=
  ⟨(scheduler_window_adherence.1 0 25200 82800 30000).1 (by decide),
   (scheduler_window_adherence.1 0 25200 82800 90000).2 (by decide),
   (scheduler_window_adherence.2 0 82800 25200 (by decide)).1,
   (scheduler_window_adherence.2 0 82800 25200 (by decide)).2⟩

/-- C8 counterexample: the record serialized by the live path has no
`observation_delay_seconds` column — the observation-delay column is named
`timestamp_delay_seconds`. -/
theorem observation_delay_column_missing :
    ¬ ("observation_delay_seconds" ∈
        (to_db_record (addDelays scenarioRow1)).map Prod.fst) := by
  decide

/-- C8 (amended): the two duration-valued fields are serialized as integer
seconds (never duration objects), under the columns
`expected_delay_seconds` and `timestamp_delay_seconds` (not
`observation_delay_seconds`). -/
theorem delay_fields_integer_seconds (r : DevRow) :
    (to_db_record r).lookup "expected_delay_seconds" =
      some (.int r.expected_delay) ∧
    (to_db_record r).lookup "timestamp_delay_seconds" =
      some (.int r.timestamp_delay) ∧
    "observation_delay_seconds" ∉ (to_db_record r).map Prod.fst := by
  refine ⟨?_, ?_, ?_⟩ <;> simp [to_db_record, List.lookup]

/-- C9: `day_number` is a pure function of the arrival date and the fixed
epoch 2024-12-01 — the whole-day count from the epoch to the arrival — so
independent runs agree on it; for `aimed_arrival = 2025-01-06T08:15:00`
(a Monday) the derived day-of-week is Monday (0), the month is 1 and
`day_number` is 36. -/
theorem day_number_pure_calendar :
    (∀ a : NaiveDT, a.hour < 24 → a.minute < 60 → a.second < 60 →
      day_number a =
        days_from_civil a.year a.month a.day - days_from_civil 2024 12 1) ∧
    day_of_week ⟨2025, 1, 6, 8, 15, 0⟩ = 0 ∧
    month_of ⟨2025, 1, 6, 8, 15, 0⟩ = 1 ∧
    day_number ⟨2025, 1, 6, 8, 15, 0⟩ = 36 := by
  refine ⟨?_, by decide, rfl, by decide⟩
  intro a hh hm hs
  have hsec : (0 : Int) ≤ ((a.hour * 3600 + a.minute * 60 + a.second : Nat) : Int) :=
    Int.ofNat_nonneg _
  have hsec2 : ((a.hour * 3600 + a.minute * 60 + a.second : Nat) : Int) < 86400 := by
    have : a.hour * 3600 + a.minute * 60 + a.second < 86400 := by omega
    exact_mod_cast this
  have h1 : toSeconds a - toSeconds start_date =
      (days_from_civil a.year a.month a.day - days_from_civil 2024 12 1) * 86400 +
        ((a.hour * 3600 + a.minute * 60 + a.second : Nat) : Int) := by
    simp only [toSeconds, start_date]
    push_cast
    ring
  rw [day_number, h1]
  exact fdiv_day _ _ hsec hsec2

/-- Witness for C9 at the §8 calendar-derivation date. -/
theorem day_number_pure_calendar_witness :
    day_number ⟨2025, 1, 6, 8, 15, 0⟩ =
      days_from_civil 2025 1 6 - days_from_civil 2024 12 1 :=
  day_number_pure_calendar.1 ⟨2025, 1, 6, 8, 15, 0⟩ (by decide) (by decide) (by decide)

/-- C10: each flattened row's `timestamp` is the snapshot's second-precision
parsed capture time re-zoned with the row's own `aimedArrivalTime` offset;
two rows of the same snapshot whose aimed arrivals carry different UTC
offsets therefore denote different capture instants. -/
theorem convert_snapshot_ts_rowwise_zone (s : NaiveDT) (t1 t2 : EstimatedCall)
    (h : t1.aimedArrivalTime.offset ≠ t2.aimedArrivalTime.offset) :
    ∃ r1 r2, convert_to_dataframe [⟨s, [t1, t2]⟩] = [r1, r2] ∧
      r1.timestamp = ⟨s, t1.aimedArrivalTime.offset⟩ ∧
      r2.timestamp = ⟨s, t2.aimedArrivalTime.offset⟩ ∧
      instantOf r1.timestamp ≠ instantOf r2.timestamp := by
  refine ⟨_, _, rfl, rfl, rfl, ?_⟩
  simp only [instantOf, row_timestamp]
  intro hc
  apply h
  omega

/-- Witness for C10: one snapshot with two calls at offsets +01:00 and
+02:00. -/
theorem convert_snapshot_ts_rowwise_zone_witness :
    ∃ r1 r2,
      convert_to_dataframe [⟨⟨2025, 1, 6, 8, 15, 0⟩, [exCall 3600, exCall 7200]⟩] =
        [r1, r2] ∧
      r1.timestamp = ⟨⟨2025, 1, 6, 8, 15, 0⟩, (exCall 3600).aimedArrivalTime.offset⟩ ∧
      r2.timestamp = ⟨⟨2025, 1, 6, 8, 15, 0⟩, (exCall 7200).aimedArrivalTime.offset⟩ ∧
      instantOf r1.timestamp ≠ instantOf r2.timestamp :=
  convert_snapshot_ts_rowwise_zone ⟨2025, 1, 6, 8, 15, 0⟩ (exCall 3600) (exCall 7200)
    (by decide)
